import Mathlib

/-!
Verification development for `src/light_engine.py` (LightEngine, a compact
EVM gas & profit helper CLI).

The Python source is shallowly embedded: Python integers become `ℤ`/`ℕ`,
Python float arithmetic is modelled by exact rational arithmetic over `ℚ`,
Python `int(...)` applied to a float becomes truncation toward zero,
`sorted` becomes insertion sort on `ℤ`, dictionaries printed as JSON become
association lists, the RPC endpoint scan becomes a fold over a list of
per-endpoint responses, and `sys.exit` (abnormal termination) becomes the
error side of a sum type.
-/

/-- Python `int()` applied to an exact rational value: truncation toward zero. -/
def truncQ (q : ℚ) : ℤ := if 0 ≤ q then ⌊q⌋ else ⌈q⌉

/-- `PWEI = 10**18` (source line 29). -/
def PWEI : ℤ := 10 ^ 18

/-- `def gwei_to_wei(x): return int(float(x)*1e9)` (source line 30),
float arithmetic modelled exactly over `ℚ`. -/
def gwei_to_wei (x : ℚ) : ℤ := truncQ (x * 10 ^ 9)

/-- `def wei_to_gwei(x): return (int(x))/1e9` (source line 31). -/
def wei_to_gwei (x : ℤ) : ℚ := (x : ℚ) / 10 ^ 9

/-- `def eth_to_wei(x): return int(float(x)*PWEI)` (source line 32). -/
def eth_to_wei (x : ℚ) : ℤ := truncQ (x * 10 ^ 18)

/-- Round-half-to-even to the nearest integer, as Python `round` does
on an exactly represented value. -/
def roundHalfEven (q : ℚ) : ℤ :=
  if Int.fract q < 1 / 2 then ⌊q⌋
  else if 1 / 2 < Int.fract q then ⌊q⌋ + 1
  else if ⌊q⌋ % 2 = 0 then ⌊q⌋ else ⌊q⌋ + 1

/-- Python `round(q, 3)` (used for all gwei outputs in the source). -/
def round3 (q : ℚ) : ℚ := (roundHalfEven (q * 1000) : ℚ) / 1000

/-- Python `sorted` on a list of integers (`s=sorted(v)`, source line 46),
realised as insertion sort, which agrees with any stable sort on `ℤ`. -/
def sortInt (v : List ℤ) : List ℤ := v.insertionSort (· ≤ ·)

/-- The interpolation rank `k=(len(s)-1)*p/100` of the percentile helper
(source line 46). -/
def pctRank (s : List ℤ) (p : ℤ) : ℚ := ((s.length : ℚ) - 1) * p / 100

/-- Body of the percentile helper `pct` of `fee_hist` (source lines 45-47)
on an already sorted sample list: with `i = floor(k)` and
`j = min(i+1, len(s)-1)`, return `s[i]` if `i == j`, else
`int(s[i] + (s[j]-s[i])*(k-i))`. Out-of-range indexing (which would raise
in Python) is defaulted to `0`; the claims only use in-range inputs. -/
def pctOn (s : List ℤ) (p : ℤ) : ℤ :=
  if ⌊pctRank s p⌋ = min (⌊pctRank s p⌋ + 1) ((s.length : ℤ) - 1) then
    s.getD (⌊pctRank s p⌋).toNat 0
  else
    truncQ ((s.getD (⌊pctRank s p⌋).toNat 0 : ℚ)
      + ((s.getD (min (⌊pctRank s p⌋ + 1) ((s.length : ℤ) - 1)).toNat 0 : ℚ)
         - (s.getD (⌊pctRank s p⌋).toNat 0 : ℚ)) * (pctRank s p - ⌊pctRank s p⌋))

/-- The percentile helper `pct(v,p)` of `fee_hist` (source lines 45-47):
sort, then interpolate. -/
def pct (v : List ℤ) (p : ℤ) : ℤ := pctOn (sortInt v) p

/-- Spec-side percentile definition, taken from the spec's words (section 4.2):
rank `k = (n-1)*p/100`; result `sorted[floor(k)]` if `floor(k) == ceil(k)`,
else the exact linear blend between `sorted[floor(k)]` and `sorted[ceil(k)]`
at fraction `k - floor(k)`. Stated on an already sorted list. -/
def pctSpecOn (s : List ℤ) (p : ℤ) : ℚ :=
  if ⌊pctRank s p⌋ = ⌈pctRank s p⌉ then (s.getD (⌊pctRank s p⌋).toNat 0 : ℚ)
  else (s.getD (⌊pctRank s p⌋).toNat 0 : ℚ)
    + ((s.getD (⌈pctRank s p⌉).toNat 0 : ℚ) - (s.getD (⌊pctRank s p⌋).toNat 0 : ℚ))
      * (pctRank s p - ⌊pctRank s p⌋)

/-- Spec-side percentile over the unsorted samples. -/
def pctSpec (v : List ℤ) (p : ℤ) : ℚ := pctSpecOn (sortInt v) p

theorem truncQ_intCast (m : ℤ) : truncQ (m : ℚ) = m := by
  unfold truncQ
  split
  · exact Int.floor_intCast m
  · exact Int.ceil_intCast m

theorem ceilEval (q : ℚ) (z : ℤ) (h1 : (z : ℚ) - 1 < q) (h2 : q ≤ (z : ℚ)) : ⌈q⌉ = z :=
  Int.ceil_eq_iff.mpr ⟨h1, h2⟩

theorem pctOn_eq_truncQ_pctSpecOn (s : List ℤ) (p : ℤ)
    (hs : s ≠ []) (hp0 : 0 ≤ p) (hp1 : p ≤ 100) :
    pctOn s p = truncQ (pctSpecOn s p) := by
  have hlen : 0 < s.length := List.length_pos.mpr hs
  have hn1 : (0 : ℚ) ≤ (s.length : ℚ) - 1 := by
    have h1 : (1 : ℚ) ≤ (s.length : ℚ) := by exact_mod_cast hlen
    linarith
  have hk0 : 0 ≤ pctRank s p := by
    have hp0' : (0 : ℚ) ≤ (p : ℚ) := by exact_mod_cast hp0
    exact div_nonneg (mul_nonneg hn1 hp0') (by norm_num)
  have hk1 : pctRank s p ≤ (s.length : ℚ) - 1 := by
    rw [pctRank, mul_div_assoc]
    have hp1' : (p : ℚ) / 100 ≤ 1 := by
      rw [div_le_one (by norm_num)]
      exact_mod_cast hp1
    exact mul_le_of_le_one_right hn1 hp1'
  unfold pctOn pctSpecOn
  set k := pctRank s p with hkdef
  have hi0 : 0 ≤ ⌊k⌋ := Int.floor_nonneg.mpr hk0
  have hi1 : ⌊k⌋ ≤ (s.length : ℤ) - 1 := by
    have h := Int.floor_le_floor hk1
    rwa [show ((s.length : ℚ) - 1) = (((s.length : ℤ) - 1 : ℤ) : ℚ) by push_cast; ring,
      Int.floor_intCast] at h
  rcases lt_or_eq_of_le hi1 with hlt | heq
  · -- floor k is strictly below the top index, so j = i + 1
    have hmin : min (⌊k⌋ + 1) ((s.length : ℤ) - 1) = ⌊k⌋ + 1 := min_eq_left (by omega)
    rw [hmin]
    rw [if_neg (by omega)]
    by_cases hki : k = (⌊k⌋ : ℚ)
    · -- k is an integral rank: both sides collapse to s[i]
      have hceil : ⌈k⌉ = ⌊k⌋ :=
        le_antisymm (Int.ceil_le.mpr (le_of_eq hki)) (Int.floor_le_ceil k)
      rw [if_pos hceil.symm]
      have hz : k - (⌊k⌋ : ℚ) = 0 := by rw [sub_eq_zero]; exact hki
      rw [hz, mul_zero, add_zero]
    · -- k is fractional: ceil k = floor k + 1 and both sides are the same blend
      have hflt : (⌊k⌋ : ℚ) < k := lt_of_le_of_ne (Int.floor_le k) (Ne.symm hki)
      have hceil : ⌈k⌉ = ⌊k⌋ + 1 := by
        refine le_antisymm (Int.ceil_le.mpr ?_) ?_
        · push_cast
          exact le_of_lt (Int.lt_floor_add_one k)
        · have := Int.lt_ceil.mpr hflt
          omega
      rw [if_neg (by omega), hceil]
  · -- floor k equals the top index: k = len - 1 exactly, both sides are s[len-1]
    have hktop : k = (⌊k⌋ : ℚ) := by
      refine le_antisymm ?_ (Int.floor_le k)
      rw [heq]
      push_cast
      exact hk1
    have hceil : ⌈k⌉ = ⌊k⌋ :=
      le_antisymm (Int.ceil_le.mpr (le_of_eq hktop)) (Int.floor_le_ceil k)
    have hmin : min (⌊k⌋ + 1) ((s.length : ℤ) - 1) = ⌊k⌋ := by
      rw [heq]
      omega
    rw [hmin, if_pos rfl, if_pos hceil.symm, truncQ_intCast]

/-- One endpoint's behaviour for a single `rpc` call (source lines 17-27):
`failure` is a raised exception (network error, timeout, non-JSON body),
`errObj` is a JSON body without a `"result"` field, whose optional
`"error"` field becomes the recorded failure, and `result` is a JSON body
with a `"result"` field. -/
inductive Resp (α : Type) where
  | failure (msg : String)
  | errObj (err : Option String)
  | result (v : α)
deriving DecidableEq

/-- Whether an endpoint response carries a `"result"` field. -/
def Resp.isResult {α : Type} : Resp α → Bool
  | .result _ => true
  | _ => false

/-- How one endpoint updates the `last` failure record (source lines 25-26). -/
def Resp.failRecord {α : Type} : Resp α → Option String → Option String
  | .failure m, _ => some m
  | .errObj e, _ => e
  | .result _, last => last

/-- The endpoint scan of `rpc` (source lines 19-27): try each endpoint in
order, return the first `"result"` value immediately, record failures in
`last`, and `sys.exit` carrying the last failure (modelled as the error side)
when every endpoint has failed. -/
def rpcScan {α : Type} : List (Resp α) → Option String → Except (Option String) α
  | [], last => .error last
  | .failure m :: rest, _ => rpcScan rest (some m)
  | .errObj e :: rest, _ => rpcScan rest e
  | .result v :: _, _ => .ok v

theorem rpcScan_first_result {α : Type} (pre post : List (Resp α)) (v : α)
    (last : Option String) (h : ∀ r ∈ pre, r.isResult = false) :
    rpcScan (pre ++ Resp.result v :: post) last = .ok v := by
  induction pre generalizing last with
  | nil => rfl
  | cons r t ih =>
    have ht : ∀ x ∈ t, x.isResult = false := fun x hx => h x (List.mem_cons_of_mem _ hx)
    cases r with
    | failure m => exact ih (some m) ht
    | errObj e => exact ih e ht
    | result w => simpa [Resp.isResult] using h _ (List.mem_cons_self _ _)

theorem rpcScan_all_fail {α : Type} (rs : List (Resp α)) (last : Option String)
    (h : ∀ r ∈ rs, r.isResult = false) :
    rpcScan rs last = .error (rs.foldl (fun acc r => r.failRecord acc) last) := by
  induction rs generalizing last with
  | nil => rfl
  | cons r t ih =>
    have ht : ∀ x ∈ t, x.isResult = false := fun x hx => h x (List.mem_cons_of_mem _ hx)
    cases r with
    | failure m => simpa [rpcScan, Resp.failRecord] using ih (some m) ht
    | errObj e => simpa [rpcScan, Resp.failRecord] using ih e ht
    | result w => simpa [Resp.isResult] using h _ (List.mem_cons_self _ _)

/-- Hex digit value, as accepted by Python `int(_, 16)`. -/
def hexDigitVal (c : Char) : Option ℕ :=
  if '0' ≤ c ∧ c ≤ '9' then some (c.toNat - '0'.toNat)
  else if 'a' ≤ c ∧ c ≤ 'f' then some (c.toNat - 'a'.toNat + 10)
  else if 'A' ≤ c ∧ c ≤ 'F' then some (c.toNat - 'A'.toNat + 10)
  else none

/-- Accumulating hex-digit run; `none` as the final accumulator means no
digit was seen (Python raises `ValueError` there). -/
def hexDigits : List Char → Option ℕ → Option ℕ
  | [], acc => acc
  | c :: cs, acc =>
    match hexDigitVal c, acc with
    | some d, some a => hexDigits cs (some (a * 16 + d))
    | some d, none => hexDigits cs (some d)
    | none, _ => none

/-- Drop an optional `0x`/`0X` prefix. -/
def stripHexPre : List Char → List Char
  | '0' :: 'x' :: t => t
  | '0' :: 'X' :: t => t
  | t => t

/-- Python `int(s, 16)`: optional sign, optional `0x` prefix, then hex
digits; `none` where Python raises `ValueError`. -/
def pyIntHex (s : String) : Option ℤ :=
  match s.data with
  | '-' :: t => (hexDigits (stripHexPre t) none).map (fun n => -(n : ℤ))
  | '+' :: t => (hexDigits (stripHexPre t) none).map (fun n => (n : ℤ))
  | t => (hexDigits (stripHexPre t) none).map (fun n => (n : ℤ))

/-- `def maxprio()` (source lines 38-40): `int(rpc("eth_maxPriorityFeePerGas"),16)`
under a bare `except:` that also catches the `SystemExit` raised by `rpc`
when every endpoint fails, falling back to `gwei_to_wei(1.5)`. -/
def maxprio (rs : List (Resp String)) : ℤ :=
  match rpcScan rs none with
  | .error _ => gwei_to_wei (3 / 2)
  | .ok s =>
    match pyIntHex s with
    | some v => v
    | none => gwei_to_wei (3 / 2)

/-- Python `lst[-n:]` on the decoded base-fee list (source line 44): the
last `n` entries (all of them when `n` exceeds the length); Python's
`lst[-0:]` is the whole list. -/
def pyTakeLast (n : ℕ) (xs : List ℤ) : List ℤ :=
  if n = 0 then xs else xs.drop (xs.length - n)

/-- `fee_hist` (source lines 42-48) after the RPC call and hex decoding,
as a function of the decoded base-fee-per-block sequence: truncate to the
last `n` samples, label each requested percentile `"p<percentile>"` with its
gwei value rounded to 3 decimals, and append the `"latest"` key holding the
most recent sample's gwei value (also rounded to 3 decimals). -/
def fee_hist (n : ℕ) (pcts : List ℤ) (hist : List ℤ) : List (String × ℚ) :=
  (pcts.map fun p => ("p" ++ toString p, round3 (wei_to_gwei (pct (pyTakeLast n hist) p))))
    ++ [("latest", round3 (wei_to_gwei ((pyTakeLast n hist).getLastD 0)))]

/-- The break-even computation of `cmd_plan` (source line 71):
`max(0, eth_to_wei(profit)//max(1,gas) - tip)`; Python `//` is floor
division, `Int.fdiv`. -/
def break_even (profit : ℚ) (gas tip : ℤ) : ℤ :=
  max 0 (Int.fdiv (eth_to_wei profit) (max 1 gas) - tip)

/-- The JSON object printed by `cmd_plan` (source lines 72-81). -/
structure PlanOut where
  baseFee_gwei : ℚ
  priority_gwei : ℚ
  break_even_baseFee_gwei : ℚ
  recommend : String
  maxPriorityFeePerGas_gwei : ℚ
  maxFeePerGas_gwei : ℚ
deriving DecidableEq

/-- `cmd_plan`'s output object (source lines 65-82) as a function of the
parsed arguments (`profit` in ETH, `gas` units, `tip` and `head` in wei) and
the fetched base fee `bf` in wei. -/
def cmd_plan_core (profit : ℚ) (gas tip head bf : ℤ) : PlanOut :=
  { baseFee_gwei := round3 (wei_to_gwei bf)
    priority_gwei := round3 (wei_to_gwei tip)
    break_even_baseFee_gwei := round3 (wei_to_gwei (break_even profit gas tip))
    recommend := if bf ≤ break_even profit gas tip then "SEND" else "WAIT"
    maxPriorityFeePerGas_gwei := round3 (wei_to_gwei tip)
    maxFeePerGas_gwei := round3 (wei_to_gwei (bf + tip + head)) }

/-- What one completed `cmd_wait` run writes and how it exits. -/
structure WaitOut where
  lines : List ℚ
  marker : String
  exitCode : ℕ
deriving DecidableEq

/-- The polling loop of `cmd_wait` (source lines 57-63), driven by the
finite list of (base fee, clock reading) pairs that `basefee()` and
`time.time()` would yield at successive iterations; `none` means the
observations ran out with the loop still polling. Each iteration first
prints the fetched fee in gwei (3 decimals), then tests the target, then
the deadline `time.time()-t0 > to`. -/
def waitLoop (tgt : ℤ) (tmo t0 : ℚ) : List (ℤ × ℚ) → Option WaitOut
  | [] => none
  | (bf, now) :: rest =>
    if bf ≤ tgt then some ⟨[round3 (wei_to_gwei bf)], "GO", 0⟩
    else if tmo < now - t0 then some ⟨[round3 (wei_to_gwei bf)], "TIMEOUT", 2⟩
    else (waitLoop tgt tmo t0 rest).map fun r =>
      ⟨round3 (wei_to_gwei bf) :: r.lines, r.marker, r.exitCode⟩

/-- `cmd_oracle` (source lines 50-52) prints exactly one JSON object:
`{blocks, baseFee_gwei}`. -/
def cmd_oracle_prints (n : ℕ) (pcts hist : List ℤ) : List (ℕ × List (String × ℚ)) :=
  [(n, fee_hist n pcts hist)]

/-- `cmd_plan` prints exactly one JSON object (source line 82). -/
def cmd_plan_prints (profit : ℚ) (gas tip head bf : ℤ) : List PlanOut :=
  [cmd_plan_core profit gas tip head bf]

/-- Python `round(q, 8)`, used for `cost_eth_at_current`. -/
def round8 (q : ℚ) : ℚ := (roundHalfEven (q * 10 ^ 8) : ℚ) / 10 ^ 8

/-- `cmd_estimate` (source lines 84-94) prints exactly one JSON object:
`{gas, cost_eth_at_current}` with `cost = gas*(bf+pr)/PWEI` rounded to 8
decimals. -/
def cmd_estimate_prints (gas bf pr : ℤ) : List (ℤ × ℚ) :=
  [(gas, round8 (((gas * (bf + pr) : ℤ) : ℚ) / (PWEI : ℚ)))]

/-- The mode table of `main` (source line 97). -/
def modes : List String := ["oracle", "wait", "plan", "estimate"]

/-- The leading argument check each handler performs before any RPC call:
`cmd_wait` (line 55) exits when its first argument is absent (or an empty
string, which is falsy in Python), `cmd_plan` (line 66) requires two
positional arguments, `cmd_estimate` (line 85) requires three. -/
def argCheck (op : String) (rest : List String) : Option String :=
  if op = "wait" then
    if rest.headD "" = "" then some "need maxBaseFeeGwei" else none
  else if op = "plan" then
    if rest.length < 2 then
      some "usage: plan <profitETH> <gasUnits> [tipGwei] [headroomGwei]"
    else none
  else if op = "estimate" then
    if rest.length < 3 then
      some "usage: estimate <from> <to> <dataHex> [valueETH]"
    else none
  else none

/-- The usage-error analysis of an invocation `argv` (the full `sys.argv`,
program name included): `main` (source lines 96-100) exits with the mode
list when `len(sys.argv) < 2` or the operation is unknown; otherwise the
dispatched handler's own leading argument check runs. -/
def usageError (argv : List String) : Option String :=
  match argv with
  | _ :: op :: rest =>
    if op ∈ modes then argCheck op rest else some "modes: oracle|wait|plan|estimate"
  | _ => some "modes: oracle|wait|plan|estimate"

/-- `main` with the post-check handler work abstracted as `go`: when a usage
check fires, the process exits with the message before the dispatched
handler issues any RPC request; otherwise the handler body runs on the
operation name and the remaining arguments. -/
def mainRun {α : Type} (argv : List String) (go : String → List String → α) :
    Sum String α :=
  match usageError argv with
  | some m => Sum.inl m
  | none => Sum.inr (go (argv.getD 1 "") (argv.drop 2))

theorem round3_intCast (z : ℤ) : round3 (z : ℚ) = z := by
  rw [round3, roundHalfEven,
    show ((z : ℚ) * 1000) = ((z * 1000 : ℤ) : ℚ) by push_cast; ring,
    Int.fract_intCast, Int.floor_intCast, if_pos (by norm_num : (0 : ℚ) < 1 / 2)]
  push_cast
  ring

theorem wei_to_gwei_gwei (g : ℤ) : wei_to_gwei (g * 10 ^ 9) = (g : ℚ) := by
  rw [wei_to_gwei]
  push_cast
  ring

theorem round3_wei (g : ℤ) : round3 (wei_to_gwei (g * 10 ^ 9)) = (g : ℚ) := by
  rw [wei_to_gwei_gwei, round3_intCast]

/-- Claim C1 (amended): for every non-empty sample list and percentile
`p ∈ [0,100]`, the percentile helper returns the truncation toward zero
(Python `int(...)`) of the spec's linear-interpolation value over the
sorted list, rather than the exact blend itself; on `[10,20,30,40,50]`
percentile 50 yields 30, percentile 25 yields 20, percentile 10 yields 14. -/
theorem c1_pct_trunc_of_linear_interpolation (v : List ℤ) (p : ℤ)
    (hv : v ≠ []) (hp0 : 0 ≤ p) (hp1 : p ≤ 100) :
    pct v p = truncQ (pctSpec v p) ∧
    pct [10, 20, 30, 40, 50] 50 = 30 ∧
    pct [10, 20, 30, 40, 50] 25 = 20 ∧
    pct [10, 20, 30, 40, 50] 10 = 14 := by
  refine ⟨?_, ?_, ?_, ?_⟩
  · have hs : sortInt v ≠ [] := by
      rw [← List.length_pos, sortInt, List.length_insertionSort]
      exact List.length_pos.mpr hv
    exact pctOn_eq_truncQ_pctSpecOn (sortInt v) p hs hp0 hp1
  · norm_num [pct, pctOn, sortInt, pctRank, truncQ, List.insertionSort, List.orderedInsert]
    decide
  · norm_num [pct, pctOn, sortInt, pctRank, truncQ, List.insertionSort, List.orderedInsert]
  · norm_num [pct, pctOn, sortInt, pctRank, truncQ, List.insertionSort, List.orderedInsert]

/-- Witness for claim C1's amended theorem at sample list `[10,20,30,40,50]`
and percentile 10. -/
theorem c1_witness :
    ([10, 20, 30, 40, 50] : List ℤ) ≠ [] ∧ (0 : ℤ) ≤ 10 ∧ (10 : ℤ) ≤ 100 ∧
      pct [10, 20, 30, 40, 50] 10 = truncQ (pctSpec [10, 20, 30, 40, 50] 10) :=
  ⟨by decide, by decide, by decide,
    (c1_pct_trunc_of_linear_interpolation [10, 20, 30, 40, 50] 10
      (by decide) (by decide) (by decide)).1⟩

/-- Counterexample for claim C1 as stated: on samples `[0,1]` with
percentile 50 the code returns `int(0.5) = 0`, while the spec's exact
linear blend is `1/2`. -/
theorem c1_counterexample :
    pct [0, 1] 50 = 0 ∧ pctSpec [0, 1] 50 = 1 / 2 ∧
      ((pct [0, 1] 50 : ℚ) ≠ pctSpec [0, 1] 50) := by
  have h1 : pct [0, 1] 50 = 0 := by
    norm_num [pct, pctOn, sortInt, pctRank, truncQ, List.insertionSort, List.orderedInsert]
  have h2 : pctSpec [0, 1] 50 = 1 / 2 := by
    have hr : pctRank (sortInt [0, 1]) 50 = 1 / 2 := by
      norm_num [pctRank, sortInt, List.insertionSort, List.orderedInsert]
    have hc : (⌈(1 / 2 : ℚ)⌉ : ℤ) = 1 := ceilEval _ _ (by norm_num) (by norm_num)
    have hf : (⌊(1 / 2 : ℚ)⌋ : ℤ) = 0 := by norm_num
    rw [pctSpec, pctSpecOn, hr, hf, hc]
    norm_num [sortInt, List.insertionSort, List.orderedInsert]
  exact ⟨h1, h2, by rw [h1, h2]; norm_num⟩

/-- Claim C4: the `rpc` endpoint scan returns the first endpoint's
`"result"` value immediately (later endpoints untouched), falls through on
a raised exception or a result-less JSON body while recording the failure,
and when every endpoint has failed terminates abnormally carrying the
last-observed failure. -/
theorem c4_rpc_fallback {α : Type} (pre post rs : List (Resp α)) (v : α)
    (last : Option String) :
    ((∀ r ∈ pre, r.isResult = false) →
      rpcScan (pre ++ Resp.result v :: post) last = .ok v) ∧
    ((∀ r ∈ rs, r.isResult = false) →
      rpcScan rs last = .error (rs.foldl (fun acc r => r.failRecord acc) last)) ∧
    (∀ (m : String) (rest : List (Resp α)),
      rpcScan (Resp.failure m :: rest) last = rpcScan rest (some m)) ∧
    (∀ (e : Option String) (rest : List (Resp α)),
      rpcScan (Resp.errObj e :: rest) last = rpcScan rest e) :=
  ⟨fun h => rpcScan_first_result pre post v last h,
   fun h => rpcScan_all_fail rs last h,
   fun _ _ => rfl, fun _ _ => rfl⟩

/-- Witness for claim C4: a failing first endpoint falls through to a
succeeding second one, and two failing endpoints produce the second's
failure as the terminal error. -/
theorem c4_witness :
    rpcScan [Resp.failure "timeout", Resp.result (7 : ℤ)] none = .ok 7 ∧
    rpcScan ([Resp.failure "a", Resp.errObj (some "b")] : List (Resp ℤ)) none =
      .error (([Resp.failure "a", Resp.errObj (some "b")] : List (Resp ℤ)).foldl
        (fun acc r => r.failRecord acc) none) :=
  ⟨(c4_rpc_fallback [Resp.failure "timeout"] [] [] (7 : ℤ) none).1 (by decide),
   (c4_rpc_fallback [] [] [Resp.failure "a", Resp.errObj (some "b")] (7 : ℤ) none).2.1
     (by decide)⟩

/-- Claim C6: `maxprio` never terminates the process: it returns the fixed
default `gwei_to_wei(1.5) = 1500000000` wei when every endpoint fails
(the `SystemExit` of `rpc` is caught by the bare `except:`) or when the
first `"result"` does not parse as hex, and the parsed hex value on
success. -/
theorem c6_maxprio_never_fatal (rs pre post : List (Resp String)) (s : String) (v : ℤ) :
    gwei_to_wei (3 / 2) = 1500000000 ∧
    ((∀ r ∈ rs, r.isResult = false) → maxprio rs = 1500000000) ∧
    ((∀ r ∈ pre, r.isResult = false) → pyIntHex s = none →
      maxprio (pre ++ Resp.result s :: post) = 1500000000) ∧
    ((∀ r ∈ pre, r.isResult = false) → pyIntHex s = some v →
      maxprio (pre ++ Resp.result s :: post) = v) := by
  have hdef : gwei_to_wei (3 / 2) = 1500000000 := by
    rw [gwei_to_wei, truncQ, if_pos (by norm_num)]
    norm_num
  refine ⟨hdef, fun h => ?_, fun h hs => ?_, fun h hs => ?_⟩
  · rw [maxprio, rpcScan_all_fail rs none h, hdef]
  · rw [maxprio, rpcScan_first_result pre post s none h]
    dsimp only
    rw [hs, hdef]
  · rw [maxprio, rpcScan_first_result pre post s none h]
    dsimp only
    rw [hs]

/-- Witness for claim C6: with both endpoints failing the default is
returned; with a valid hex result `"0x59682f00"` the parsed wei value is
returned. -/
theorem c6_witness :
    maxprio [Resp.failure "timeout", Resp.errObj (some "method not found")] = 1500000000 ∧
    maxprio [Resp.failure "timeout", Resp.result "0x59682f00"] = 1500000000 ∧
    pyIntHex "0x59682f00" = some 1500000000 := by
  refine ⟨(c6_maxprio_never_fatal
      [Resp.failure "timeout", Resp.errObj (some "method not found")] [] [] "" 0).2.1
      (by decide), ?_, ?_⟩
  · exact (c6_maxprio_never_fatal [] [Resp.failure "timeout"] [] "0x59682f00"
      1500000000).2.2.2 (by decide) (by decide)
  · decide

/-- Claim C2: `fee_hist` computes its percentiles over exactly the last `n`
entries of the base-fee sequence (a prefix before the last `n` entries has
no effect), and its output holds one `"p<percentile>"` key per requested
percentile, in gwei rounded to 3 decimals, plus a `"latest"` key with the
most recent sample's gwei value. -/
theorem c2_fee_hist_last_n (n : ℕ) (pcts : List ℤ) (pre tl : List ℤ)
    (hn : 1 ≤ n) (ht : tl.length = n) :
    fee_hist n pcts (pre ++ tl) = fee_hist n pcts tl ∧
    fee_hist n pcts (pre ++ tl) =
      (pcts.map fun p => ("p" ++ toString p, round3 (wei_to_gwei (pct tl p))))
        ++ [("latest", round3 (wei_to_gwei (tl.getLastD 0)))] := by
  have hTL : pyTakeLast n (pre ++ tl) = tl := by
    rw [pyTakeLast, if_neg (by omega), List.length_append, ht, Nat.add_sub_cancel]
    exact List.drop_left pre tl
  have hTL2 : pyTakeLast n tl = tl := by
    rw [pyTakeLast, if_neg (by omega), ht, Nat.sub_self, List.drop_zero]
  constructor
  · rw [fee_hist, fee_hist, hTL, hTL2]
  · rw [fee_hist, hTL]

/-- Witness for claim C2: five decoded entries, block count 3 — only the
last three samples are used. -/
theorem c2_witness :
    (1 ≤ 3) ∧ ([10000000000, 20000000000, 30000000000] : List ℤ).length = 3 ∧
    fee_hist 3 [50] ([1, 2] ++ [10000000000, 20000000000, 30000000000]) =
      fee_hist 3 [50] [10000000000, 20000000000, 30000000000] :=
  ⟨by decide, by decide,
    (c2_fee_hist_last_n 3 [50] [1, 2] [10000000000, 20000000000, 30000000000]
      (by decide) (by decide)).1⟩

/-- Claim C3: for `gasUnits ≥ 1` the break-even base fee is
`max(0, floor(profitETH_in_wei / gasUnits) - tip)`, the recommendation is
`"SEND"` exactly when the current base fee is at most the break-even value,
and `profitETH=0.01, gasUnits=200000, tip=0` yields exactly
`50_000_000_000` wei. -/
theorem c3_plan_break_even (profit : ℚ) (gas tip head bf : ℤ) (hg : 1 ≤ gas) :
    break_even profit gas tip = max 0 (Int.fdiv (eth_to_wei profit) gas - tip) ∧
    ((cmd_plan_core profit gas tip head bf).recommend = "SEND" ↔
      bf ≤ break_even profit gas tip) ∧
    break_even (1 / 100) 200000 0 = 50000000000 := by
  refine ⟨by rw [break_even, max_eq_right hg], ?_, ?_⟩
  · by_cases h : bf ≤ break_even profit gas tip
    · simp [cmd_plan_core, h]
    · simp [cmd_plan_core, h]
  · have h : eth_to_wei (1 / 100) = 10 ^ 16 := by
      rw [eth_to_wei, truncQ, if_pos (by norm_num)]
      norm_num
    rw [break_even, h]
    decide

/-- Witness for claim C3 at `profitETH=0.01, gasUnits=200000, tip=0`,
headroom 2 gwei, base fee 40 gwei. -/
theorem c3_witness :
    (1 : ℤ) ≤ 200000 ∧
    break_even (1 / 100) 200000 0 = max 0 (Int.fdiv (eth_to_wei (1 / 100)) 200000 - 0) ∧
    ((cmd_plan_core (1 / 100) 200000 0 (2 * 10 ^ 9) (40 * 10 ^ 9)).recommend = "SEND" ↔
      40 * 10 ^ 9 ≤ break_even (1 / 100) 200000 0) ∧
    break_even (1 / 100) 200000 0 = 50000000000 := by
  have h := c3_plan_break_even (1 / 100) 200000 0 (2 * 10 ^ 9) (40 * 10 ^ 9) (by decide)
  exact ⟨by decide, h.1, h.2.1, h.2.2⟩

/-- Claim C10: with `gasUnits = 0` the divisor of the break-even
computation is clamped to `max(1, gas) = 1`, so no division by zero occurs,
the break-even base fee equals `max(0, profitETH_in_wei - tip)`, and
`cmd_plan` completes normally with that value in its printed object. -/
theorem c10_plan_gas_zero (profit : ℚ) (tip head bf : ℤ) :
    break_even profit 0 tip = max 0 (eth_to_wei profit - tip) ∧
    (cmd_plan_core profit 0 tip head bf).break_even_baseFee_gwei =
      round3 (wei_to_gwei (max 0 (eth_to_wei profit - tip))) := by
  have h : break_even profit 0 tip = max 0 (eth_to_wei profit - tip) := by
    rw [break_even, show max (1 : ℤ) 0 = 1 by decide, Int.fdiv_one]
  exact ⟨h, by rw [cmd_plan_core, h]⟩

/-- Claim C9: converting a non-negative gwei quantity to integer wei and
back stays within `1e-9` gwei of the original value. -/
theorem c9_unit_roundtrip (x : ℚ) (hx : 0 ≤ x) :
    |wei_to_gwei (gwei_to_wei x) - x| ≤ 1 / 10 ^ 9 := by
  rw [gwei_to_wei, truncQ, if_pos (by positivity)]
  have h1 : (⌊x * 10 ^ 9⌋ : ℚ) ≤ x * 10 ^ 9 := Int.floor_le _
  have h2 : x * 10 ^ 9 - 1 < (⌊x * 10 ^ 9⌋ : ℚ) := by
    have := Int.lt_floor_add_one (x * 10 ^ 9)
    linarith
  have key : wei_to_gwei ⌊x * 10 ^ 9⌋ - x = ((⌊x * 10 ^ 9⌋ : ℚ) - x * 10 ^ 9) / 10 ^ 9 := by
    rw [wei_to_gwei]
    ring
  rw [key, abs_div, abs_of_pos (by norm_num : (0 : ℚ) < 10 ^ 9)]
  have habs : |(⌊x * 10 ^ 9⌋ : ℚ) - x * 10 ^ 9| ≤ 1 :=
    abs_le.mpr ⟨by linarith, by linarith⟩
  calc |(⌊x * 10 ^ 9⌋ : ℚ) - x * 10 ^ 9| / 10 ^ 9
      ≤ 1 / 10 ^ 9 := by gcongr
    _ = 1 / 10 ^ 9 := rfl

/-- Witness for claim C9 at `x = 1.5` gwei. -/
theorem c9_witness :
    (0 : ℚ) ≤ 3 / 2 ∧ |wei_to_gwei (gwei_to_wei (3 / 2)) - 3 / 2| ≤ 1 / 10 ^ 9 :=
  ⟨by norm_num, c9_unit_roundtrip (3 / 2) (by norm_num)⟩

theorem waitLoop_cons (tgt : ℤ) (tmo t0 : ℚ) (bf : ℤ) (now : ℚ) (rest : List (ℤ × ℚ)) :
    waitLoop tgt tmo t0 ((bf, now) :: rest) =
      if bf ≤ tgt then some ⟨[round3 (wei_to_gwei bf)], "GO", 0⟩
      else if tmo < now - t0 then some ⟨[round3 (wei_to_gwei bf)], "TIMEOUT", 2⟩
      else (waitLoop tgt tmo t0 rest).map fun r =>
        ⟨round3 (wei_to_gwei bf) :: r.lines, r.marker, r.exitCode⟩ := rfl

/-- Claim C5: each `wait` iteration prints the fetched fee; the loop
announces `"GO"` (exit 0) exactly at the first iteration whose fee is at
most the target — provided no earlier iteration timed out — and announces
`"TIMEOUT"` (exit 2) at the first iteration whose fee still exceeds the
target once the elapsed time passes the timeout. The printed lines are
exactly the fees of the iterations run. -/
theorem c5_wait_first_crossing (tgt : ℤ) (tmo t0 : ℚ) (k : ℕ) :
    ∀ obs : List (ℤ × ℚ), k < obs.length →
    (∀ j, j < k → tgt < (obs.getD j (0, 0)).1 ∧ (obs.getD j (0, 0)).2 - t0 ≤ tmo) →
    ((obs.getD k (0, 0)).1 ≤ tgt →
      waitLoop tgt tmo t0 obs =
        some ⟨(obs.take (k + 1)).map (fun o => round3 (wei_to_gwei o.1)), "GO", 0⟩) ∧
    (tgt < (obs.getD k (0, 0)).1 → tmo < (obs.getD k (0, 0)).2 - t0 →
      waitLoop tgt tmo t0 obs =
        some ⟨(obs.take (k + 1)).map (fun o => round3 (wei_to_gwei o.1)), "TIMEOUT", 2⟩) := by
  induction k with
  | zero =>
    intro obs hk hbefore
    cases obs with
    | nil => exact absurd hk (by simp)
    | cons o rest =>
      obtain ⟨bf, now⟩ := o
      constructor
      · intro hle
        have hle' : bf ≤ tgt := hle
        rw [waitLoop_cons, if_pos hle']
        rfl
      · intro hgt htime
        have hgt' : tgt < bf := hgt
        have htime' : tmo < now - t0 := htime
        rw [waitLoop_cons, if_neg (not_le.mpr hgt'), if_pos htime']
        rfl
  | succ k ih =>
    intro obs hk hbefore
    cases obs with
    | nil => exact absurd hk (by simp)
    | cons o rest =>
      obtain ⟨bf, now⟩ := o
      have h0 := hbefore 0 (Nat.succ_pos k)
      have hnle : ¬ bf ≤ tgt := not_le.mpr h0.1
      have hnt : ¬ tmo < now - t0 := not_lt.mpr h0.2
      have hk' : k < rest.length := by simpa using hk
      have hb' : ∀ j, j < k →
          tgt < (rest.getD j (0, 0)).1 ∧ (rest.getD j (0, 0)).2 - t0 ≤ tmo := by
        intro j hj
        simpa using hbefore (j + 1) (Nat.succ_lt_succ hj)
      have hstep : waitLoop tgt tmo t0 ((bf, now) :: rest) =
          (waitLoop tgt tmo t0 rest).map fun r =>
            ⟨round3 (wei_to_gwei bf) :: r.lines, r.marker, r.exitCode⟩ := by
        rw [waitLoop_cons, if_neg hnle, if_neg hnt]
      constructor
      · intro hle
        rw [hstep, (ih rest hk' hb').1 (by simpa using hle)]
        rfl
      · intro hgt htime
        rw [hstep, (ih rest hk' hb').2 (by simpa using hgt) (by simpa using htime)]
        rfl

/-- Witness for claim C5: three observations, fee crossing the target on
the third iteration; the loop prints three fee lines and goes. -/
theorem c5_witness :
    waitLoop (10 ^ 10) 100 0 [(3 * 10 ^ 10, 1), (2 * 10 ^ 10, 2), (5 * 10 ^ 9, 3)] =
      some ⟨([((3 : ℤ) * 10 ^ 10, (1 : ℚ)), (2 * 10 ^ 10, 2), (5 * 10 ^ 9, 3)].take 3).map
        (fun o => round3 (wei_to_gwei o.1)), "GO", 0⟩ := by
  refine (c5_wait_first_crossing (10 ^ 10) 100 0 2
    [(3 * 10 ^ 10, 1), (2 * 10 ^ 10, 2), (5 * 10 ^ 9, 3)] (by decide) ?_).1 (by decide)
  intro j hj
  interval_cases j
  · exact ⟨by decide, by norm_num⟩
  · exact ⟨by decide, by norm_num⟩

theorem waitLoop_timeout_example :
    waitLoop (10 * 10 ^ 9) 100 0 [(20 * 10 ^ 9, 200)] = some ⟨[20], "TIMEOUT", 2⟩ := by
  rw [waitLoop_cons, if_neg (by decide), if_pos (by norm_num)]
  simp only [round3_wei]
  norm_num

theorem waitLoop_go_example :
    waitLoop (10 * 10 ^ 9) 100 0 [(20 * 10 ^ 9, 1), (5 * 10 ^ 9, 2)] =
      some ⟨[20, 5], "GO", 0⟩ := by
  rw [waitLoop_cons, if_neg (by decide), if_neg (by norm_num), waitLoop_cons,
    if_pos (by decide)]
  simp only [round3_wei, Option.map_some']
  norm_num

theorem waitLoop_shape (tgt : ℤ) (tmo t0 : ℚ) :
    ∀ (obs : List (ℤ × ℚ)) (r : WaitOut), waitLoop tgt tmo t0 obs = some r →
      (r.marker = "GO" ∧ r.exitCode = 0 ∨ r.marker = "TIMEOUT" ∧ r.exitCode = 2) ∧
        1 ≤ r.lines.length := by
  intro obs
  induction obs with
  | nil =>
    intro r h
    exact absurd h (by simp [waitLoop])
  | cons o rest ih =>
    obtain ⟨bf, now⟩ := o
    intro r h
    rw [waitLoop_cons] at h
    by_cases h1 : bf ≤ tgt
    · rw [if_pos h1] at h
      cases h
      exact ⟨Or.inl ⟨rfl, rfl⟩, by simp⟩
    · rw [if_neg h1] at h
      by_cases h2 : tmo < now - t0
      · rw [if_pos h2] at h
        cases h
        exact ⟨Or.inr ⟨rfl, rfl⟩, by simp⟩
      · rw [if_neg h2] at h
        rcases Option.map_eq_some'.mp h with ⟨r', hr', hfr⟩
        obtain ⟨hshape, _⟩ := ih r' hr'
        rw [← hfr]
        exact ⟨hshape, by simp⟩

/-- Claim C7 (amended): `oracle`, `plan` and `estimate` print exactly one
JSON object; `wait` instead prints one fee line per iteration plus a final
`"GO"`/`"TIMEOUT"` marker (at least two output chunks), exits 0 on `"GO"`
and 2 on `"TIMEOUT"`, so a timed-out run has already produced output. -/
theorem c7_handler_output_shape (tgt : ℤ) (tmo t0 : ℚ) (obs : List (ℤ × ℚ)) (r : WaitOut)
    (n : ℕ) (pcts hist : List ℤ) (profit : ℚ) (gas tip head bf pr eg : ℤ) :
    (waitLoop tgt tmo t0 obs = some r →
      (r.marker = "GO" ∧ r.exitCode = 0 ∨ r.marker = "TIMEOUT" ∧ r.exitCode = 2) ∧
        1 ≤ r.lines.length) ∧
    (cmd_oracle_prints n pcts hist).length = 1 ∧
    (cmd_plan_prints profit gas tip head bf).length = 1 ∧
    (cmd_estimate_prints eg bf pr).length = 1 :=
  ⟨waitLoop_shape tgt tmo t0 obs r, rfl, rfl, rfl⟩

/-- Witness for claim C7's amended theorem on a concrete timed-out wait
run and a concrete plan invocation. -/
theorem c7_witness :
    waitLoop (10 * 10 ^ 9) 100 0 [(20 * 10 ^ 9, 200)] = some ⟨[20], "TIMEOUT", 2⟩ ∧
    ((⟨[20], "TIMEOUT", 2⟩ : WaitOut).marker = "GO" ∧
        (⟨[20], "TIMEOUT", 2⟩ : WaitOut).exitCode = 0 ∨
      (⟨[20], "TIMEOUT", 2⟩ : WaitOut).marker = "TIMEOUT" ∧
        (⟨[20], "TIMEOUT", 2⟩ : WaitOut).exitCode = 2) ∧
    1 ≤ (⟨[20], "TIMEOUT", 2⟩ : WaitOut).lines.length ∧
    (cmd_plan_prints 1 1 1 1 1).length = 1 :=
  ⟨waitLoop_timeout_example,
   ((c7_handler_output_shape (10 * 10 ^ 9) 100 0 [(20 * 10 ^ 9, 200)] ⟨[20], "TIMEOUT", 2⟩
      1 [] [] 1 1 1 1 1 1 1).1 waitLoop_timeout_example).1,
   ((c7_handler_output_shape (10 * 10 ^ 9) 100 0 [(20 * 10 ^ 9, 200)] ⟨[20], "TIMEOUT", 2⟩
      1 [] [] 1 1 1 1 1 1 1).1 waitLoop_timeout_example).2,
   (c7_handler_output_shape (10 * 10 ^ 9) 100 0 [(20 * 10 ^ 9, 200)] ⟨[20], "TIMEOUT", 2⟩
      1 [] [] 1 1 1 1 1 1 1).2.2.1⟩

/-- Counterexample for claim C7 as stated: a timed-out `wait` run exits
with status 2 after having printed a fee line (not "fails before producing
any output"), and a successful `wait` run prints two fee lines plus the
`"GO"` marker — three output chunks, not a single JSON object. -/
theorem c7_counterexample :
    waitLoop (10 * 10 ^ 9) 100 0 [(20 * 10 ^ 9, 200)] = some ⟨[20], "TIMEOUT", 2⟩ ∧
    ((2 : ℕ) ≠ 0 ∧ ([20] : List ℚ) ≠ []) ∧
    waitLoop (10 * 10 ^ 9) 100 0 [(20 * 10 ^ 9, 1), (5 * 10 ^ 9, 2)] =
      some ⟨[20, 5], "GO", 0⟩ ∧
    ([20, 5] : List ℚ).length + 1 ≠ 1 :=
  ⟨waitLoop_timeout_example, ⟨by decide, by simp⟩, waitLoop_go_example, by simp⟩

/-- Claim C8: every usage-error invocation — no operation name, an unknown
operation, `wait` without its required argument, `plan` with fewer than two
positional arguments, `estimate` with fewer than three — exits with a short
usage message, and the outcome is independent of the abstracted handler
body, i.e. no RPC request is made before exiting. -/
theorem c8_usage_errors {α : Type} (go go2 : String → List String → α)
    (prog op : String) (rest : List String) :
    mainRun [prog] go = Sum.inl "modes: oracle|wait|plan|estimate" ∧
    (op ∉ modes →
      mainRun (prog :: op :: rest) go = Sum.inl "modes: oracle|wait|plan|estimate") ∧
    mainRun [prog, "wait"] go = Sum.inl "need maxBaseFeeGwei" ∧
    (rest.length < 2 → mainRun (prog :: "plan" :: rest) go =
      Sum.inl "usage: plan <profitETH> <gasUnits> [tipGwei] [headroomGwei]") ∧
    (rest.length < 3 → mainRun (prog :: "estimate" :: rest) go =
      Sum.inl "usage: estimate <from> <to> <dataHex> [valueETH]") ∧
    (usageError (prog :: op :: rest) ≠ none →
      mainRun (prog :: op :: rest) go = mainRun (prog :: op :: rest) go2) := by
  refine ⟨rfl, ?_, rfl, ?_, ?_, ?_⟩
  · intro h
    simp [mainRun, usageError, h]
  · intro h
    simp [mainRun, usageError, argCheck, modes, h]
  · intro h
    simp [mainRun, usageError, argCheck, modes, h]
  · intro h
    rcases heq : usageError (prog :: op :: rest) with _ | m
    · exact absurd heq h
    · simp [mainRun, heq]

/-- Witness for claim C8 on concrete bad invocations. -/
theorem c8_witness :
    mainRun ["light_engine.py"] (fun _ _ => (0 : ℕ)) =
      Sum.inl "modes: oracle|wait|plan|estimate" ∧
    ("frobnicate" ∉ modes) ∧
    mainRun ["light_engine.py", "frobnicate"] (fun _ _ => (0 : ℕ)) =
      Sum.inl "modes: oracle|wait|plan|estimate" ∧
    mainRun ["light_engine.py", "wait"] (fun _ _ => (0 : ℕ)) =
      Sum.inl "need maxBaseFeeGwei" ∧
    (([] : List String).length < 2) ∧
    mainRun ["light_engine.py", "plan"] (fun _ _ => (0 : ℕ)) =
      Sum.inl "usage: plan <profitETH> <gasUnits> [tipGwei] [headroomGwei]" ∧
    mainRun ["light_engine.py", "estimate"] (fun _ _ => (0 : ℕ)) =
      Sum.inl "usage: estimate <from> <to> <dataHex> [valueETH]" := by
  have h := c8_usage_errors (fun _ _ => (0 : ℕ)) (fun _ _ => (1 : ℕ))
    "light_engine.py" "frobnicate" []
  exact ⟨h.1, by decide, h.2.1 (by decide), h.2.2.1, by decide,
    h.2.2.2.1 (by decide), h.2.2.2.2.1 (by decide)⟩
